import Mathlib

set_option maxRecDepth 100000

/-!
Verification of the relay signed-envelope protocol and relay store semantics.

This development shallowly embeds the Rust sources of the relay repository:
  * `src/lib.rs`      — the generic `Signed<T>` envelope (`Signed::new`, `Signed::verify`);
  * `src/crypto.rs`   — base64 wrappers around fixed-size Ed25519 key/signature buffers;
  * `src/text.rs`, `src/profile.rs` — the `Post`/`PostRequest`/`Profile`/`ProfileRequest`
    payloads;
  * `relay-server/src/text.rs`, `relay-server/src/profile.rs` — the store handlers
    `get_text`, `post_text`, `get_profile`, `post_profile`;
  * `relay-client/src/main.rs` — the message-rendering / profile-fetch fragment of the
    interactive client.

Machine integers are embedded as `Nat` (bytes carry an explicit `< 256` bound where it
matters), fallible operations return `Option`, and the SQLite tables are embedded as
lists of row records.  The external crates `ring` (Ed25519) and `base64` are the only
non-repository code the embedding touches: the base64 engine is embedded faithfully
(standard alphabet, canonical padding, no trailing bits), and the Ed25519 primitive,
which is external to the repository, is modelled from the spec as an idealized
deterministic signature scheme (see `edSign`).
-/

/-! ## JSON values and serde_json-compatible rendering

`serde_json::Value` restricted to the shapes the envelopes produce; numbers are
embedded as `Nat` (the only numeric field the protocol serializes is the `u64`
timestamp).  `serde_json`'s default `Map` is a `BTreeMap`, i.e. an assoc list kept
sorted by key; `Rmap.insert` below mirrors its insertion. -/

mutual

inductive Json where
  | null
  | bool (b : Bool)
  | num (n : Nat)
  | str (s : String)
  | arr (xs : JsonList)
  | obj (fields : JsonFields)

/-- A JSON array's elements (kept as a mutual inductive so that rendering is
structurally recursive). -/
inductive JsonList where
  | nil
  | cons (x : Json) (xs : JsonList)

/-- A JSON object's fields, in serialization order. -/
inductive JsonFields where
  | nil
  | cons (k : String) (v : Json) (fs : JsonFields)

end

/-- An assoc list viewed as JSON object fields. -/
def jfields : List (String × Json) → JsonFields
  | [] => .nil
  | (k, v) :: rest => .cons k v (jfields rest)

/-- Lowercase hex digit, as `serde_json` uses in `\u00XX` escapes. -/
def hexDig (n : Nat) : Char :=
  "0123456789abcdef".data.getD n '0'

/-- Escaping in the manner of `serde_json` of a single character inside a JSON string. -/
def escChar (c : Char) : String :=
  if c = '"' then "\\\""
  else if c = '\\' then "\\\\"
  else if c = '\n' then "\\n"
  else if c = '\r' then "\\r"
  else if c = '\t' then "\\t"
  else if c = '\x08' then "\\b"
  else if c = '\x0c' then "\\f"
  else if c.toNat < 32 then "\\u00" ++ (hexDig (c.toNat / 16)).toString ++ (hexDig (c.toNat % 16)).toString
  else c.toString

def escList : List Char → String
  | [] => ""
  | c :: cs => escChar c ++ escList cs

/-- A JSON string literal: quoted and escaped. -/
def renderJString (s : String) : String :=
  "\"" ++ escList s.data ++ "\""

mutual

/-- Compact rendering, byte-identical to `serde_json::to_string`. -/
def renderJson : Json → String
  | .null => "null"
  | .bool true => "true"
  | .bool false => "false"
  | .num n => toString n
  | .str s => renderJString s
  | .arr xs => "[" ++ renderArr xs ++ "]"
  | .obj fs => "\x7b" ++ renderFields fs ++ "\x7d"

def renderArr : JsonList → String
  | .nil => ""
  | .cons x .nil => renderJson x
  | .cons x xs => renderJson x ++ "," ++ renderArr xs

def renderFields : JsonFields → String
  | .nil => ""
  | .cons k v .nil => renderJString k ++ ":" ++ renderJson v
  | .cons k v fs => renderJString k ++ ":" ++ renderJson v ++ "," ++ renderFields fs

end

/-! ## BTreeMap-style sorted maps (serde_json::Map) -/

/-- Insertion as in `BTreeMap::insert`: keep the assoc list strictly sorted by key, replacing the
value on an equal key.  `String` comparison is codepoint-lexicographic, which agrees
with the byte-wise UTF-8 order `BTreeMap<String, _>` uses. -/
def Rmap.insert (k : String) (v : Json) : List (String × Json) → List (String × Json)
  | [] => [(k, v)]
  | (k', v') :: rest =>
    if k < k' then (k, v) :: (k', v') :: rest
    else if k = k' then (k, v) :: rest
    else (k', v') :: Rmap.insert k v rest

/-- Building a `serde_json::Map` by inserting entries in sequence. -/
def Rmap.ofList (l : List (String × Json)) : List (String × Json) :=
  l.foldl (fun m p => Rmap.insert p.1 p.2 m) []

/-! ## base64 (standard alphabet, canonical padding)

Faithful model of `base64::prelude::BASE64_STANDARD`: encoding pads to a multiple of
four characters; decoding requires canonical padding and rejects non-zero trailing
bits (the crate's `GeneralPurposeConfig` defaults). -/

def b64Alphabet : List Char :=
  (List.range 26).map (fun i => Char.ofNat ('A'.toNat + i)) ++
    (List.range 26).map (fun i => Char.ofNat ('a'.toNat + i)) ++
    (List.range 10).map (fun i => Char.ofNat ('0'.toNat + i)) ++ ['+', '/']

def b64Char (s : Nat) : Char := b64Alphabet.getD s '?'

def b64Index (c : Char) : Option Nat := b64Alphabet.findIdx? (· = c)

/-- Bytes are `Nat`s; every byte produced by the protocol is `< 256`. -/
abbrev Bytes := List Nat

def encodeQuads : Bytes → List Char
  | [] => []
  | [a] => [b64Char (a / 4), b64Char (a % 4 * 16), '=', '=']
  | [a, b] => [b64Char (a / 4), b64Char (a % 4 * 16 + b / 16), b64Char (b % 16 * 4), '=']
  | a :: b :: c :: rest =>
    b64Char (a / 4) :: b64Char (a % 4 * 16 + b / 16) :: b64Char (b % 16 * 4 + c / 64) ::
      b64Char (c % 64) :: encodeQuads rest

def decodeFullQuad (c1 c2 c3 c4 : Char) : Option Bytes :=
  match b64Index c1, b64Index c2, b64Index c3, b64Index c4 with
  | some s1, some s2, some s3, some s4 =>
    some [s1 * 4 + s2 / 16, s2 % 16 * 16 + s3 / 4, s3 % 4 * 64 + s4]
  | _, _, _, _ => none

/-- The final four characters of a base64 string: zero, one or two padding chars,
with the unused low bits of the last symbol required to be zero. -/
def decodeLastQuad (c1 c2 c3 c4 : Char) : Option Bytes :=
  if c3 = '=' then
    if c4 = '=' then
      match b64Index c1, b64Index c2 with
      | some s1, some s2 => if s2 % 16 = 0 then some [s1 * 4 + s2 / 16] else none
      | _, _ => none
    else none
  else if c4 = '=' then
    match b64Index c1, b64Index c2, b64Index c3 with
    | some s1, some s2, some s3 =>
      if s3 % 4 = 0 then some [s1 * 4 + s2 / 16, s2 % 16 * 16 + s3 / 4] else none
    | _, _, _ => none
  else decodeFullQuad c1 c2 c3 c4

def decodeQuads : List Char → Option Bytes
  | [] => some []
  | [c1, c2, c3, c4] => decodeLastQuad c1 c2 c3 c4
  | c1 :: c2 :: c3 :: c4 :: rest =>
    match decodeFullQuad c1 c2 c3 c4, decodeQuads rest with
    | some bytes3, some bs => some (bytes3 ++ bs)
    | _, _ => none
  | _ => none

def encodeB64 (bs : Bytes) : String := String.mk (encodeQuads bs)

def decodeB64 (s : String) : Option Bytes := decodeQuads s.data

/-! ## crypto.rs -/

def ED25519_SIGNATURE_LEN : Nat := 64
def ED25519_PUBLIC_KEY_LEN : Nat := 32

/-- Outcome of a Rust call that either returns a value or panics. -/
inductive Panics (α : Type) where
  | ret (val : α)
  | panic
deriving DecidableEq

/-- The body of `from_base64`: `decode_slice_unchecked` of a base64 string into a
zero-initialized `[0; n]` buffer, wrapped into the `Option`.  `ret none` on a
`DecodeError` (invalid base64); when the decode fits, `ret (some bytes)` with the
undecoded tail of the buffer left zero; and when the decoded length exceeds the
buffer, a panic — `decode_slice_unchecked` (unlike `decode_slice`, whose error type
has an `OutputSliceTooSmall` variant) does not size-check the output slice and
panics on overflow.  `PublicKey::from_base64` and `Signature::from_base64` are this
function at `n = 32` and `n = 64`. -/
def fromBase64Run (n : Nat) (base64 : String) : Panics (Option Bytes) :=
  match decodeB64 base64 with
  | none => .ret none
  | some bs =>
    if bs.length ≤ n then .ret (some (bs ++ List.replicate (n - bs.length) 0))
    else .panic

def PublicKey.from_base64_run (base64 : String) : Panics (Option Bytes) :=
  fromBase64Run ED25519_PUBLIC_KEY_LEN base64

def Signature.from_base64_run (base64 : String) : Panics (Option Bytes) :=
  fromBase64Run ED25519_SIGNATURE_LEN base64

/-- The non-panicking projection of `fromBase64Run`, with the overflow panic mapped
to `none`.  It underlies the `Bool`-valued embedding `Signed.verify` and agrees
with the program on every input on which the program returns (invalid base64, and
decodes that fit the buffer); properties of the overflow path are stated against
`fromBase64Run` itself. -/
def fromBase64Sized (n : Nat) (base64 : String) : Option Bytes :=
  match fromBase64Run n base64 with
  | .ret r => r
  | .panic => none

def PublicKey.from_base64 (base64 : String) : Option Bytes :=
  fromBase64Sized ED25519_PUBLIC_KEY_LEN base64

def Signature.from_base64 (base64 : String) : Option Bytes :=
  fromBase64Sized ED25519_SIGNATURE_LEN base64

def PublicKey.to_base64 (bytes : Bytes) : String := encodeB64 bytes

def Signature.to_base64 (bytes : Bytes) : String := encodeB64 bytes

/-- Modelled from the spec: the Ed25519 primitive itself lives in the external `ring`
crate, not in this repository.  The spec requires a deterministic scheme with
`verify(pk, m, sign(sk, m)) = true` ("sign(identity, canonical_bytes) -> Signature",
"verify(public_key, canonical_bytes, signature) -> bool").  The idealized model
identifies the key pair with its 32-byte public half and signs by a deterministic
64-byte tag of `(key, message)`. -/
def edSign (seed : Bytes) (msg : Bytes) : Bytes :=
  seed ++ List.replicate 31 0 ++ [msg.foldl (fun a b => (a + b) % 256) 0]

/-- Modelled from the spec: `ring`'s `UnparsedPublicKey::verify` under the idealized
scheme of `edSign` — a signature is valid iff it is the tag for this key and message. -/
def PublicKey.verify (pk : Bytes) (message : Bytes) (signature : Bytes) : Bool :=
  signature == edSign pk message

/-- Modelled from the spec: an Ed25519 key pair ("a key pair; the public half is the
participant's only identifier"), reduced to its 32-byte seed. -/
structure KeyPair where
  seed : Bytes

def KeyPair.public_key (kp : KeyPair) : Option Bytes := some kp.seed

def KeyPair.sign (kp : KeyPair) (data : Bytes) : Option Bytes := some (edSign kp.seed data)

/-- A well-formed key pair: a 32-byte seed of genuine bytes. -/
def KeyPair.Valid (kp : KeyPair) : Prop :=
  kp.seed.length = ED25519_PUBLIC_KEY_LEN ∧ ∀ b ∈ kp.seed, b < 256

/-! ## lib.rs — the Signed envelope -/

/-- The `Signed<T>` struct from `src/lib.rs`. -/
structure Signed (T : Type) where
  key : String
  server : String
  timestamp : Nat
  data : T
  signature : String

/-- The `Serialize` capability of a payload: its flattened JSON fields, in
declaration order. -/
class Serialize (T : Type) where
  fields : T → List (String × Json)

/-- Serialization `serde_json::to_string(&signed)`: the struct fields in declaration order, the
payload's fields flattened in place of `data`, and `signature` skipped when empty
(`#[serde(skip_serializing_if = "String::is_empty")]`). -/
def serializeSigned {T : Type} [Serialize T] (s : Signed T) : String :=
  renderJson (.obj (jfields
    (("key", .str s.key) :: ("server", .str s.server) :: ("timestamp", .num s.timestamp) ::
      Serialize.fields s.data ++
        (if s.signature = "" then [] else [("signature", .str s.signature)]))))

/-- The bytes `str::as_bytes` yields — for the ASCII strings the canonical encoding produces,
UTF-8 bytes coincide with codepoints. -/
def strToBytes (s : String) : Bytes := s.data.map Char.toNat

/-- The constructor `Signed::new` from `src/lib.rs`. -/
def Signed.new {T : Type} [Serialize T] (key_pair : KeyPair) (server : String)
    (timestamp : Nat) (data : T) : Option (Signed T) :=
  match key_pair.public_key with
  | none => none
  | some public_key =>
    let signed : Signed T :=
      { key := PublicKey.to_base64 public_key, server := server, timestamp := timestamp,
        data := data, signature := "" }
    let serialized := serializeSigned signed
    match key_pair.sign (strToBytes serialized) with
    | none => none
    | some signature => some { signed with signature := Signature.to_base64 signature }

/-- Verification `Signed::verify` from `src/lib.rs`, as a `Bool` through the
non-panicking decode projection; `Signed.verify_run` below is the panic-faithful
version, and `verify_run_agrees` shows the two coincide on every envelope whose
key and signature decode without overflowing their buffers. -/
def Signed.verify {T : Type} [Serialize T] (s : Signed T) : Bool :=
  match PublicKey.from_base64 s.key with
  | none => false
  | some public_key =>
    match Signature.from_base64 s.signature with
    | none => false
    | some signature =>
      let blanked := { s with signature := "" }
      let serialized := serializeSigned blanked
      PublicKey.verify public_key (strToBytes serialized) signature

/-- Verification `Signed::verify` from `src/lib.rs` under the panic-faithful decode
model: a decode failure on the key or the signature returns `false`; an overflowing
decode (`decode_slice_unchecked` on an oversized valid encoding) propagates as a
panic; otherwise the cryptographic check decides. -/
def Signed.verify_run {T : Type} [Serialize T] (s : Signed T) : Panics Bool :=
  match PublicKey.from_base64_run s.key with
  | .panic => .panic
  | .ret none => .ret false
  | .ret (some public_key) =>
    match Signature.from_base64_run s.signature with
    | .panic => .panic
    | .ret none => .ret false
    | .ret (some signature) =>
      let blanked := { s with signature := "" }
      let serialized := serializeSigned blanked
      .ret (PublicKey.verify public_key (strToBytes serialized) signature)

/-! ## Payload types (src/text.rs, src/profile.rs) -/

/-- The `Post` payload from `src/text.rs`; `metadata` is a `serde_json::Map` embedded as its
sorted entry list. -/
structure Post where
  channel : String
  content : String
  metadata : Option (List (String × Json))

instance : Serialize Post where
  fields p :=
    ("channel", .str p.channel) :: ("content", .str p.content) ::
      (match p.metadata with
        | none => []
        | some m => [("metadata", Json.obj (jfields m))])

/-- The `PostRequest` payload from `src/text.rs`. -/
structure PostRequest where
  channel : String
  metadata : Option (List (String × Json))

instance : Serialize PostRequest where
  fields p :=
    ("channel", .str p.channel) ::
      (match p.metadata with
        | none => []
        | some m => [("metadata", Json.obj (jfields m))])

/-- The `Profile` payload from `src/profile.rs`. -/
structure Profile where
  name : String
  metadata : Option (List (String × Json))

instance : Serialize Profile where
  fields p :=
    ("name", .str p.name) ::
      (match p.metadata with
        | none => []
        | some m => [("metadata", Json.obj (jfields m))])

/-- The `ProfileRequest` payload from `src/profile.rs` (`#[serde(rename = "targetKey")]`). -/
structure ProfileRequest where
  target_key : String

instance : Serialize ProfileRequest where
  fields r := [("targetKey", .str r.target_key)]

/-! ## relay-server — store state and handlers

The SQLite tables are embedded as lists of row records; `insert` appends a row,
`select ... where key=?` is `List.find?`, `update ... where key=?` maps over the
rows.  Of the two server variants in the source, the feature-complete module
(`relay-server/src/text.rs`, `relay-server/src/profile.rs`) is embedded; the older
inline copy in `relay-server/src/main.rs` omits the replay check and the `server`
column. -/

/-- A row of the `posts` table, as `post_text` populates it:
`insert into posts (key, server, timestamp, channel, content, signature)`. -/
structure PostRow where
  key : String
  server : String
  timestamp : Nat
  channel : String
  content : String
  signature : String
deriving DecidableEq

/-- A row of the `profiles` table, as `post_profile` populates it:
`insert into profiles (key, server, timestamp, name, signature)`. -/
structure ProfileRow where
  key : String
  server : String
  timestamp : Nat
  name : String
  signature : String
deriving DecidableEq

/-- The relay database: `posts`, `profiles` and the `users` anti-replay ledger
(`key`, `lastrequest`). -/
structure Store where
  posts : List PostRow
  profiles : List ProfileRow
  users : List (String × Nat)

def Store.empty : Store := ⟨[], [], []⟩

inductive ApiError where
  | FAILED_VERIFY_SIGNATURE
  | IMPOSSIBLE_TIMESTAMP
  | PROFILE_NOT_FOUND
deriving DecidableEq

inductive SubmitResult where
  | err (e : ApiError)
  | ok

inductive TextQueryResult where
  | err (e : ApiError)
  | ok (posts : List (Signed Post))

inductive ProfileQueryResult where
  | err (e : ApiError)
  | ok (profile : Signed Profile)

/-- Decoding a `posts` row back into a `Signed<Post>` (a `select * from posts`
result): the table has no metadata column, so `metadata` deserializes as `None`. -/
def rowToPost (r : PostRow) : Signed Post :=
  { key := r.key, server := r.server, timestamp := r.timestamp,
    data := { channel := r.channel, content := r.content, metadata := none },
    signature := r.signature }

/-- Decoding a `profiles` row back into a `Signed<Profile>`. -/
def rowToProfile (r : ProfileRow) : Signed Profile :=
  { key := r.key, server := r.server, timestamp := r.timestamp,
    data := { name := r.name, metadata := none },
    signature := r.signature }

/-- The row `post_text` inserts: the envelope minus its metadata. -/
def postRowOf (req : Signed Post) : PostRow :=
  { key := req.key, server := req.server, timestamp := req.timestamp,
    channel := req.data.channel, content := req.data.content, signature := req.signature }

/-- The query `select lastrequest from users where key=<k>`. -/
def lookupLastRequest (db : Store) (k : String) : Option Nat :=
  (db.users.find? (fun u => u.1 == k)).map (·.2)

/-- The handler `get_text` from `relay-server/src/text.rs`.  Two faithful oddities: the ledger
lookup SQL is `select lastrequest from users where key='?';` — the placeholder
stands inside single quotes, so the comparison key is the literal string `"?"` and
the bound request key is unused — and no branch ever writes `lastrequest` back, so
the ledger is never updated. -/
def get_text (db : Store) (req : Signed PostRequest) : Store × TextQueryResult :=
  if !req.verify then (db, .err .FAILED_VERIFY_SIGNATURE)
  else
    match lookupLastRequest db "?" with
    | some last_req =>
      if req.timestamp ≤ last_req then (db, .err .IMPOSSIBLE_TIMESTAMP)
      else (db, .ok (db.posts.map rowToPost))
    | none => (db, .ok (db.posts.map rowToPost))

/-- The handler `post_text` from `relay-server/src/text.rs`: verify, then a bare
`insert into posts (...) values (...)`. -/
def post_text (db : Store) (req : Signed Post) : Store × SubmitResult :=
  if !req.verify then (db, .err .FAILED_VERIFY_SIGNATURE)
  else ({ db with posts := db.posts ++ [postRowOf req] }, .ok)

/-- The handler `get_profile` from `relay-server/src/profile.rs`. -/
def get_profile (db : Store) (req : Signed ProfileRequest) : ProfileQueryResult :=
  if !req.verify then .err .FAILED_VERIFY_SIGNATURE
  else
    match db.profiles.find? (fun r => r.key == req.data.target_key) with
    | none => .err .PROFILE_NOT_FOUND
    | some row => .ok (rowToProfile row)

/-- The handler `post_profile` from `relay-server/src/profile.rs`: verify; if
`select name from profiles where key=?1` finds a row, run
`update profiles set name=?1 where key=?2` — only the name column — otherwise
insert a fresh row. -/
def post_profile (db : Store) (req : Signed Profile) : Store × SubmitResult :=
  if !req.verify then (db, .err .FAILED_VERIFY_SIGNATURE)
  else
    match db.profiles.find? (fun r => r.key == req.key) with
    | some _ =>
      ({ db with profiles :=
          db.profiles.map (fun r => if r.key == req.key then { r with name := req.data.name } else r) },
        .ok)
    | none =>
      ({ db with profiles :=
          db.profiles ++ [{ key := req.key, server := req.server, timestamp := req.timestamp,
                            name := req.data.name, signature := req.signature }] },
        .ok)

/-! ## relay-client — message rendering and profile-fetch commands -/

/-- The client's local message view entry. -/
structure Message where
  sender : String
  content : String

/-- The client's profile cache entry. -/
structure ProfileDisplay where
  key : String
  name : String
  verified : Bool

inductive BackendCommand where
  | Exit
  | SendMessage (content : String)
  | SendProfile (name : String)
  | RequestProfile (target : String)
deriving DecidableEq

/-- The check `state.users.contains_key(&sender)`. -/
def usersContains (users : List (String × ProfileDisplay)) (k : String) : Bool :=
  users.any (fun u => u.1 == k)

/-- The lookup `state.users[&sender].name`. -/
def usersName (users : List (String × ProfileDisplay)) (k : String) : String :=
  ((users.find? (fun u => u.1 == k)).map (fun u => u.2.name)).getD ""

/-- The message-rendering loop of `draw_ui` (`relay-client/src/main.rs`): for each
message, a known sender renders under its cached name; an unknown sender renders as
"Guest" and is pushed — once per message — onto `state.unknown_users`.  Returns the
rendered lines and the grown `unknown_users` list. -/
def drawMessages (users : List (String × ProfileDisplay)) :
    List Message → List String → List String × List String
  | [], unknown => ([], unknown)
  | m :: ms, unknown =>
    if usersContains users m.sender then
      let rest := drawMessages users ms unknown
      ((usersName users m.sender ++ ": " ++ m.content) :: rest.1, rest.2)
    else
      let rest := drawMessages users ms (unknown ++ [m.sender])
      (("Guest" ++ ": " ++ m.content) :: rest.1, rest.2)

/-- The `frontend` drain loop: `for target in state.unknown_users.drain(..)` sends
`BackendCommand::RequestProfile { target }` per entry. -/
def drainUnknown (unknown : List String) : List BackendCommand :=
  unknown.map (fun t => .RequestProfile t)

/-- One observation batch: the view is replaced by `msgs`, drawn once (starting from
the drained-empty `unknown_users`), and the resulting unknown list is drained into
profile-fetch commands on the next loop iteration. -/
def observeBatch (users : List (String × ProfileDisplay)) (msgs : List Message) :
    List BackendCommand :=
  drainUnknown (drawMessages users msgs []).2

/-! ## base64 roundtrip -/

theorem b64Index_b64Char : ∀ s < 64, b64Index (b64Char s) = some s := by decide

theorem b64Char_ne_pad : ∀ s < 64, b64Char s ≠ '=' := by decide

theorem encodeQuads_cons_shape (d : Nat) (l : Bytes) :
    ∃ x xs, encodeQuads (d :: l) = x :: xs := by
  match l with
  | [] => exact ⟨_, _, rfl⟩
  | [e] => exact ⟨_, _, rfl⟩
  | e :: f :: r => exact ⟨_, _, rfl⟩

/-- Decoding inverts encoding on genuine byte lists. -/
theorem decodeQuads_encodeQuads : ∀ bs : Bytes, (∀ b ∈ bs, b < 256) →
    decodeQuads (encodeQuads bs) = some bs
  | [], _ => rfl
  | [a], h => by
    have ha : a < 256 := h a (by simp)
    have h1 := b64Index_b64Char (a / 4) (by omega)
    have h2 := b64Index_b64Char (a % 4 * 16) (by omega)
    simp [encodeQuads, decodeQuads, decodeLastQuad, h1, h2, Nat.mul_mod_left]
    omega
  | [a, b], h => by
    have ha : a < 256 := h a (by simp)
    have hb : b < 256 := h b (by simp)
    have h1 := b64Index_b64Char (a / 4) (by omega)
    have h2 := b64Index_b64Char (a % 4 * 16 + b / 16) (by omega)
    have h3 := b64Index_b64Char (b % 16 * 4) (by omega)
    have hne := b64Char_ne_pad (b % 16 * 4) (by omega)
    simp [encodeQuads, decodeQuads, decodeLastQuad, h1, h2, h3, hne, Nat.mul_mod_left]
    constructor
    · omega
    · omega
  | a :: b :: c :: rest, h => by
    have ha : a < 256 := h a (by simp)
    have hb : b < 256 := h b (by simp)
    have hc : c < 256 := h c (by simp)
    have h1 := b64Index_b64Char (a / 4) (by omega)
    have h2 := b64Index_b64Char (a % 4 * 16 + b / 16) (by omega)
    have h3 := b64Index_b64Char (b % 16 * 4 + c / 64) (by omega)
    have h4 := b64Index_b64Char (c % 64) (by omega)
    have hne3 := b64Char_ne_pad (b % 16 * 4 + c / 64) (by omega)
    have hne4 := b64Char_ne_pad (c % 64) (by omega)
    match rest with
    | [] =>
      simp [encodeQuads, decodeQuads, decodeLastQuad, decodeFullQuad, h1, h2, h3, h4, hne3, hne4]
      refine ⟨by omega, by omega, by omega⟩
    | d :: rest' =>
      have ih := decodeQuads_encodeQuads (d :: rest') (fun x hx => h x (by simp [hx]))
      obtain ⟨x, xs, hx⟩ := encodeQuads_cons_shape d rest'
      rw [hx] at ih
      simp [encodeQuads, hx, decodeQuads, decodeFullQuad, h1, h2, h3, h4, ih]
      refine ⟨by omega, by omega, by omega⟩

theorem decodeB64_encodeB64 (bs : Bytes) (h : ∀ b ∈ bs, b < 256) :
    decodeB64 (encodeB64 bs) = some bs :=
  decodeQuads_encodeQuads bs h

/-- Behaviour of `fromBase64Run` by cases on its input: zero-padded success when the
decode fits the buffer, `none` exactly on invalid base64, and a panic exactly on a
decode that overflows the buffer. -/
theorem fromBase64Run_spec (n : Nat) (s : String) :
    (∀ bs, decodeB64 s = some bs → bs.length ≤ n →
        fromBase64Run n s = Panics.ret (some (bs ++ List.replicate (n - bs.length) 0)))
    ∧ (fromBase64Run n s = Panics.ret none ↔ decodeB64 s = none)
    ∧ (fromBase64Run n s = Panics.panic ↔
        ∃ bs, decodeB64 s = some bs ∧ n < bs.length) := by
  unfold fromBase64Run
  rcases hd : decodeB64 s with _ | bs
  · refine ⟨by simp, by simp, by simp⟩
  · refine ⟨?_, ?_, ?_⟩
    · intro bs' hbs' hle
      obtain rfl : bs = bs' := by simpa using hbs'
      simp [hle]
    · by_cases hle : bs.length ≤ n
      · simp [hle]
      · simp [hle]
    · by_cases hle : bs.length ≤ n
      · simp [hle, Nat.not_lt.mpr hle]
      · simp [hle, Nat.not_le.mp hle]

/-- C10 counterexample: a valid 44-character base64 string decoding to 33 bytes —
one byte over the 32-byte public-key buffer — does not make `from_base64` return
`None`: `decode_slice_unchecked` panics on the too-small output slice. -/
theorem from_base64_oversized_panics :
    decodeB64 (encodeB64 (List.replicate 33 1)) = some (List.replicate 33 1)
    ∧ PublicKey.from_base64_run (encodeB64 (List.replicate 33 1)) = Panics.panic
    ∧ PublicKey.from_base64_run (encodeB64 (List.replicate 33 1)) ≠ Panics.ret none :=
  ⟨by decide, rfl, by decide⟩

/-- C10 (amended): `PublicKey::from_base64` and `Signature::from_base64` return
`Some` for every valid base64 string whose decoded length is at most 32
(respectively 64) bytes, zero-padding the undecoded remainder of the fixed-size
buffer — so an undersized encoding is not rejected at decode time — and return
`None` exactly when the input is not valid base64; when a valid input's decoded
length exceeds the buffer they do not return at all: `decode_slice_unchecked`
panics on the too-small output slice. -/
theorem from_base64_zero_pads_or_panics (s : String) :
    (∀ bs, decodeB64 s = some bs → bs.length ≤ ED25519_PUBLIC_KEY_LEN →
        PublicKey.from_base64_run s
          = Panics.ret (some (bs ++ List.replicate (ED25519_PUBLIC_KEY_LEN - bs.length) 0)))
    ∧ (PublicKey.from_base64_run s = Panics.ret none ↔ decodeB64 s = none)
    ∧ (PublicKey.from_base64_run s = Panics.panic ↔
        ∃ bs, decodeB64 s = some bs ∧ ED25519_PUBLIC_KEY_LEN < bs.length)
    ∧ (∀ bs, decodeB64 s = some bs → bs.length ≤ ED25519_SIGNATURE_LEN →
        Signature.from_base64_run s
          = Panics.ret (some (bs ++ List.replicate (ED25519_SIGNATURE_LEN - bs.length) 0)))
    ∧ (Signature.from_base64_run s = Panics.ret none ↔ decodeB64 s = none)
    ∧ (Signature.from_base64_run s = Panics.panic ↔
        ∃ bs, decodeB64 s = some bs ∧ ED25519_SIGNATURE_LEN < bs.length) :=
  ⟨(fromBase64Run_spec ED25519_PUBLIC_KEY_LEN s).1,
   (fromBase64Run_spec ED25519_PUBLIC_KEY_LEN s).2.1,
   (fromBase64Run_spec ED25519_PUBLIC_KEY_LEN s).2.2,
   (fromBase64Run_spec ED25519_SIGNATURE_LEN s).1,
   (fromBase64Run_spec ED25519_SIGNATURE_LEN s).2.1,
   (fromBase64Run_spec ED25519_SIGNATURE_LEN s).2.2⟩

/-- C10 witness: the one-byte encoding "AA==" is undersized for the 32-byte
public-key buffer yet decodes successfully, zero-padded. -/
theorem from_base64_zero_pads_or_panics_witness :
    PublicKey.from_base64_run "AA==" =
      Panics.ret (some ([0] ++ List.replicate (ED25519_PUBLIC_KEY_LEN - [0].length) 0)) :=
  (from_base64_zero_pads_or_panics "AA==").1 [0] (by decide) (by decide)

/-! ## envelope sign/verify roundtrip -/

theorem foldl_mod_lt (msg : Bytes) :
    ∀ acc, acc < 256 → msg.foldl (fun a b => (a + b) % 256) acc < 256 := by
  induction msg with
  | nil => exact fun acc h => h
  | cons c cs ih => exact fun acc _ => ih _ (Nat.mod_lt _ (by omega))

theorem edSign_bytes (seed msg : Bytes) (h : ∀ b ∈ seed, b < 256) :
    ∀ b ∈ edSign seed msg, b < 256 := by
  intro b hb
  simp only [edSign, List.mem_append, List.mem_singleton, List.mem_replicate] at hb
  rcases hb with (hb | ⟨-, rfl⟩) | rfl
  · exact h b hb
  · omega
  · exact foldl_mod_lt msg 0 (by omega)

theorem edSign_length (seed msg : Bytes) (h : seed.length = 32) :
    (edSign seed msg).length = 64 := by
  simp [edSign, h]

theorem Signed.new_eq {T : Type} [Serialize T] (kp : KeyPair) (server : String)
    (timestamp : Nat) (data : T) :
    Signed.new kp server timestamp data =
      some { key := PublicKey.to_base64 kp.seed, server := server, timestamp := timestamp,
             data := data,
             signature := Signature.to_base64 (edSign kp.seed (strToBytes (serializeSigned
               ({ key := PublicKey.to_base64 kp.seed, server := server, timestamp := timestamp,
                  data := data, signature := "" } : Signed T)))) } := rfl

/-- C2: an envelope built by `Signed::new` from a valid key pair verifies. -/
theorem new_then_verify {T : Type} [Serialize T] (kp : KeyPair) (hkp : kp.Valid)
    (server : String) (timestamp : Nat) (data : T) (e : Signed T)
    (h : Signed.new kp server timestamp data = some e) : e.verify = true := by
  obtain ⟨hlen, hbytes⟩ := hkp
  rw [Signed.new_eq] at h
  obtain rfl : _ = e := Option.some.inj h
  have hpk : PublicKey.from_base64 (PublicKey.to_base64 kp.seed) = some kp.seed := by
    unfold PublicKey.from_base64 fromBase64Sized fromBase64Run PublicKey.to_base64
    rw [decodeB64_encodeB64 kp.seed hbytes]
    simp [hlen, ED25519_PUBLIC_KEY_LEN]
  have hsg : ∀ m : Bytes, Signature.from_base64 (Signature.to_base64 (edSign kp.seed m)) =
      some (edSign kp.seed m) := by
    intro m
    unfold Signature.from_base64 fromBase64Sized fromBase64Run Signature.to_base64
    rw [decodeB64_encodeB64 _ (edSign_bytes kp.seed m hbytes)]
    simp [edSign_length kp.seed m hlen, ED25519_SIGNATURE_LEN]
  unfold Signed.verify
  rw [show ({ key := PublicKey.to_base64 kp.seed, server := server, timestamp := timestamp,
              data := data,
              signature := Signature.to_base64 (edSign kp.seed (strToBytes (serializeSigned
                ({ key := PublicKey.to_base64 kp.seed, server := server, timestamp := timestamp,
                   data := data, signature := "" } : Signed T)))) } : Signed T).key
        = PublicKey.to_base64 kp.seed from rfl]
  rw [hpk, hsg]
  simp [PublicKey.verify]

/-! ## canonical map building is insertion-order independent -/

/-- Strict key order on map entries. -/
def keyLt (p q : String × Json) : Prop := p.1 < q.1

theorem Rmap.insert_cons (k : String) (v : Json) (k' : String) (v' : Json)
    (rest : List (String × Json)) :
    Rmap.insert k v ((k', v') :: rest) =
      if k < k' then (k, v) :: (k', v') :: rest
      else if k = k' then (k, v) :: rest
      else (k', v') :: Rmap.insert k v rest := rfl

theorem Rmap.insert_mem {q : String × Json} (k : String) (v : Json) :
    ∀ m, q ∈ Rmap.insert k v m → q = (k, v) ∨ q ∈ m
  | [], h => by simpa [Rmap.insert] using h
  | (k', v') :: rest, h => by
    rw [Rmap.insert_cons] at h
    by_cases h1 : k < k'
    · rw [if_pos h1] at h
      rcases List.mem_cons.mp h with rfl | h
      · exact Or.inl rfl
      · exact Or.inr h
    · by_cases h2 : k = k'
      · rw [if_neg h1, if_pos h2] at h
        rcases List.mem_cons.mp h with rfl | h
        · exact Or.inl rfl
        · exact Or.inr (List.mem_cons_of_mem _ h)
      · rw [if_neg h1, if_neg h2] at h
        rcases List.mem_cons.mp h with rfl | h
        · exact Or.inr (List.mem_cons_self _ _)
        · rcases Rmap.insert_mem k v rest h with h | h
          · exact Or.inl h
          · exact Or.inr (List.mem_cons_of_mem _ h)

theorem Rmap.insert_sorted (k : String) (v : Json) :
    ∀ m, List.Sorted keyLt m → List.Sorted keyLt (Rmap.insert k v m)
  | [], _ => by simp [Rmap.insert]
  | (k', v') :: rest, hs => by
    rw [List.sorted_cons] at hs
    obtain ⟨hhead, hrest⟩ := hs
    rw [Rmap.insert_cons]
    by_cases h1 : k < k'
    · rw [if_pos h1]
      rw [List.sorted_cons]
      refine ⟨?_, List.sorted_cons.mpr ⟨hhead, hrest⟩⟩
      intro b hb
      rcases List.mem_cons.mp hb with rfl | hb
      · exact h1
      · exact lt_trans h1 (hhead b hb)
    · by_cases h2 : k = k'
      · rw [if_neg h1, if_pos h2]
        rw [List.sorted_cons]
        exact ⟨fun b hb => h2 ▸ hhead b hb, hrest⟩
      · rw [if_neg h1, if_neg h2]
        rw [List.sorted_cons]
        refine ⟨?_, Rmap.insert_sorted k v rest hrest⟩
        intro b hb
        rcases Rmap.insert_mem k v rest hb with rfl | hb
        · exact lt_of_le_of_ne (not_lt.mp h1) (Ne.symm h2)
        · exact hhead b hb

theorem Rmap.insert_perm_cons (k : String) (v : Json) :
    ∀ m, k ∉ m.map Prod.fst → List.Perm (Rmap.insert k v m) ((k, v) :: m)
  | [], _ => by simp [Rmap.insert]
  | (k', v') :: rest, hk => by
    have hk' : k ≠ k' := fun h => hk (by simp [h])
    have hkrest : k ∉ rest.map Prod.fst := fun h => hk (by simp [h])
    rw [Rmap.insert_cons]
    by_cases h1 : k < k'
    · rw [if_pos h1]
    · rw [if_neg h1, if_neg hk']
      exact ((Rmap.insert_perm_cons k v rest hkrest).cons (k', v')).trans
        (List.Perm.swap (k, v) (k', v') rest)

theorem Rmap.foldl_insert_perm :
    ∀ (l : List (String × Json)) (m : List (String × Json)),
      (l.map Prod.fst).Nodup → (∀ a ∈ l.map Prod.fst, a ∉ m.map Prod.fst) →
      List.Perm (l.foldl (fun acc p => Rmap.insert p.1 p.2 acc) m) (l ++ m)
  | [], m, _, _ => by simp
  | x :: xs, m, hnd, hdisj => by
    have hx : x.1 ∉ m.map Prod.fst := hdisj x.1 (by simp)
    have hins := Rmap.insert_perm_cons x.1 x.2 m hx
    have hnd' : (xs.map Prod.fst).Nodup := (List.nodup_cons.mp (by simpa using hnd)).2
    have hx_not_xs : x.1 ∉ xs.map Prod.fst := (List.nodup_cons.mp (by simpa using hnd)).1
    have hdisj' : ∀ a ∈ xs.map Prod.fst, a ∉ (Rmap.insert x.1 x.2 m).map Prod.fst := by
      intro a ha hmem
      have : a ∈ x.1 :: m.map Prod.fst := by
        have := (hins.map Prod.fst).mem_iff.mp hmem
        simpa using this
      rcases List.mem_cons.mp this with rfl | hmem'
      · exact hx_not_xs ha
      · exact hdisj a (by simp [ha]) hmem'
    have ih := Rmap.foldl_insert_perm xs (Rmap.insert x.1 x.2 m) hnd' hdisj'
    show List.Perm (xs.foldl (fun acc p => Rmap.insert p.1 p.2 acc) (Rmap.insert x.1 x.2 m))
      (x :: (xs ++ m))
    exact ih.trans ((hins.append_left xs).trans List.perm_middle)

theorem Rmap.ofList_sorted :
    ∀ (l : List (String × Json)) (m : List (String × Json)), List.Sorted keyLt m →
      List.Sorted keyLt (l.foldl (fun acc p => Rmap.insert p.1 p.2 acc) m)
  | [], _, hm => hm
  | x :: xs, m, hm => Rmap.ofList_sorted xs _ (Rmap.insert_sorted x.1 x.2 m hm)

/-- Maps built by inserting the same entries in any two orders (distinct keys) are
equal — the `BTreeMap` invariance behind canonical-encoding determinism. -/
theorem Rmap.ofList_eq_of_perm (l1 l2 : List (String × Json)) (hp : l1.Perm l2)
    (hnd : (l1.map Prod.fst).Nodup) : Rmap.ofList l1 = Rmap.ofList l2 := by
  haveI : IsAntisymm (String × Json) keyLt :=
    ⟨fun a b h1 h2 => absurd (lt_trans h1 h2) (lt_irrefl _)⟩
  haveI : IsTrans (String × Json) keyLt := ⟨fun a b c h1 h2 => lt_trans h1 h2⟩
  have hnd2 : (l2.map Prod.fst).Nodup := ((hp.map Prod.fst).nodup_iff).mp hnd
  have p1 : List.Perm (Rmap.ofList l1) l1 := by
    simpa using Rmap.foldl_insert_perm l1 [] hnd (by simp)
  have p2 : List.Perm (Rmap.ofList l2) l2 := by
    simpa using Rmap.foldl_insert_perm l2 [] hnd2 (by simp)
  exact List.eq_of_perm_of_sorted (p1.trans (hp.trans p2.symm))
    (Rmap.ofList_sorted l1 [] (by simp)) (Rmap.ofList_sorted l2 [] (by simp))

/-- A post envelope with blank signature, ready for canonical encoding. -/
def blankPostEnvelope (key server : String) (timestamp : Nat) (channel content : String)
    (metadata : Option (List (String × Json))) : Signed Post :=
  { key := key, server := server, timestamp := timestamp,
    data := { channel := channel, content := content, metadata := metadata },
    signature := "" }

/-- C1: the canonical byte encoding used for signing and verification is a
deterministic function of `(key, origin, timestamp, payload fields)`: two metadata
maps built by inserting the same entries (distinct keys) in different orders encode
to identical bytes. -/
theorem canonical_encoding_order_independent
    (key server : String) (timestamp : Nat) (channel content : String)
    (l1 l2 : List (String × Json)) (hp : List.Perm l1 l2)
    (hnd : (l1.map Prod.fst).Nodup) :
    serializeSigned (blankPostEnvelope key server timestamp channel content
        (some (Rmap.ofList l1)))
    = serializeSigned (blankPostEnvelope key server timestamp channel content
        (some (Rmap.ofList l2))) := by
  rw [Rmap.ofList_eq_of_perm l1 l2 hp hnd]

/-- C1 witness: the entries ("b", "2"), ("a", "1") inserted in either order yield the
same canonical bytes. -/
theorem canonical_encoding_order_independent_witness :
    serializeSigned (blankPostEnvelope "K" "S" 3 "c" "x"
        (some (Rmap.ofList [("b", Json.str "2"), ("a", Json.str "1")])))
    = serializeSigned (blankPostEnvelope "K" "S" 3 "c" "x"
        (some (Rmap.ofList [("a", Json.str "1"), ("b", Json.str "2")]))) :=
  canonical_encoding_order_independent "K" "S" 3 "c" "x"
    [("b", Json.str "2"), ("a", Json.str "1")] [("a", Json.str "1"), ("b", Json.str "2")]
    (List.Perm.swap ("a", Json.str "1") ("b", Json.str "2") []) (by decide)

/-- A concrete valid key pair for witnesses. -/
def kpW : KeyPair := ⟨List.range 32⟩

def postW : Post := { channel := "general", content := "hello", metadata := none }

def dummySignedPost : Signed Post := ⟨"", "", 0, postW, ""⟩

/-- C2 witness: a concretely signed post envelope verifies. -/
theorem new_then_verify_witness :
    Signed.verify ((Signed.new kpW "srv" 5 postW).getD dummySignedPost) = true :=
  new_then_verify kpW ⟨by decide, by decide⟩ "srv" 5 postW
    ((Signed.new kpW "srv" 5 postW).getD dummySignedPost) rfl

/-! ## relay store claims -/

def dummySignedPostRequest : Signed PostRequest := ⟨"", "", 0, ⟨"", none⟩, ""⟩

/-- A validly signed `query_posts` request with timestamp 50. -/
def req3 : Signed PostRequest :=
  (Signed.new kpW "srv" 50 (PostRequest.mk "general" none)).getD dummySignedPostRequest

/-- A store whose anti-replay ledger already records timestamp 100 for `req3`'s key. -/
def db3 : Store := ⟨[], [], [(req3.key, 100)]⟩

/-- C3 (code-bug evidence): `get_text` never enforces or updates the anti-replay
ledger.  A validly signed request with timestamp 50 succeeds even though the ledger
holds 100 for its key (the lookup key is the literal string "?" — the SQL placeholder
sits inside quotes); the same request replayed against the resulting store succeeds
again; and no `get_text` call ever changes the store, so the new timestamp is never
recorded. -/
theorem get_text_replay_not_enforced :
    (get_text db3 req3).2 = TextQueryResult.ok []
    ∧ (get_text Store.empty req3).2 = TextQueryResult.ok []
    ∧ (get_text (get_text Store.empty req3).1 req3).2 = TextQueryResult.ok []
    ∧ ∀ (db : Store) (q : Signed PostRequest), (get_text db q).1 = db := by
  refine ⟨rfl, rfl, rfl, ?_⟩
  intro db q
  unfold get_text
  split
  · rfl
  · split
    · split
      · rfl
      · rfl
    · rfl

/-- A validly signed post envelope. -/
def e4 : Signed Post :=
  (Signed.new kpW "srv" 9 (Post.mk "general" "hello again" none)).getD dummySignedPost

/-- C4 (code-bug evidence): `post_text` is a bare insert — submitting the same
validly signed envelope twice succeeds twice and leaves two identical rows with the
same signature in the post store, not one. -/
theorem post_text_duplicates :
    (post_text Store.empty e4).2 = SubmitResult.ok
    ∧ (post_text (post_text Store.empty e4).1 e4).2 = SubmitResult.ok
    ∧ (post_text (post_text Store.empty e4).1 e4).1.posts = [postRowOf e4, postRowOf e4]
    ∧ ((post_text (post_text Store.empty e4).1 e4).1.posts.filter
        (fun r => r.signature == e4.signature)).length = 2 :=
  ⟨rfl, rfl, rfl, by decide⟩

/-- An envelope with its metadata replaced. -/
def setMeta (e : Signed Post) (m : Option (List (String × Json))) : Signed Post :=
  { e with data := { e.data with metadata := m } }

/-- C9: `post_text` persists only key, server, timestamp, channel, content and
signature: the inserted row is the metadata-free projection of the envelope, it does
not depend on the metadata at all, and the envelope later reconstructed from the row
by `query_posts` carries no metadata. -/
theorem post_text_discards_metadata (db : Store) (e : Signed Post) (h : e.verify = true) :
    (post_text db e).1.posts = db.posts ++ [postRowOf e]
    ∧ (∀ m, postRowOf (setMeta e m) = postRowOf e)
    ∧ rowToPost (postRowOf e) = setMeta e none := by
  refine ⟨?_, fun m => rfl, rfl⟩
  simp [post_text, h]

/-- A validly signed post envelope that carries a metadata map. -/
def e9 : Signed Post :=
  (Signed.new kpW "srv" 11
    (Post.mk "general" "meta post" (some (Rmap.ofList [("a", Json.str "b")])))).getD
    dummySignedPost

/-- C9 witness: a concrete metadata-carrying envelope is stored without its
metadata. -/
theorem post_text_discards_metadata_witness :
    (post_text Store.empty e9).1.posts = Store.empty.posts ++ [postRowOf e9]
    ∧ rowToPost (postRowOf e9) = setMeta e9 none :=
  ⟨(post_text_discards_metadata Store.empty e9 rfl).1,
   (post_text_discards_metadata Store.empty e9 rfl).2.2⟩

theorem find?_append_of_none {α : Type} (p : α → Bool) :
    ∀ l1 l2 : List α, l1.find? p = none → (l1 ++ l2).find? p = l2.find? p
  | [], l2, _ => rfl
  | a :: l1, l2, h => by
    rcases ha : p a with _ | _
    · rw [List.cons_append, List.find?_cons_of_neg _ (by simp [ha])]
      exact find?_append_of_none p l1 l2 (by
        rw [List.find?_cons_of_neg _ (by simp [ha])] at h
        exact h)
    · rw [List.find?_cons_of_pos _ ha] at h
      exact absurd h (by simp)

theorem find?_map_pred_preserved {α : Type} (p : α → Bool) (f : α → α)
    (hf : ∀ r, p (f r) = p r) : ∀ l : List α, (l.map f).find? p = (l.find? p).map f
  | [] => rfl
  | a :: l => by
    rcases ha : p a with _ | _
    · rw [List.map_cons, List.find?_cons_of_neg _ (by simp [hf, ha]),
        List.find?_cons_of_neg _ (by simp [ha]), find?_map_pred_preserved p f hf l]
    · rw [List.map_cons, List.find?_cons_of_pos _ (by simp [hf, ha]),
        List.find?_cons_of_pos _ ha]
      rfl

/-- The row `post_profile` inserts for a previously unknown key. -/
def profileRowOf (req : Signed Profile) : ProfileRow :=
  { key := req.key, server := req.server, timestamp := req.timestamp,
    name := req.data.name, signature := req.signature }

theorem post_profile_insert (db : Store) (e : Signed Profile) (h : e.verify = true)
    (habs : db.profiles.find? (fun r => r.key == e.key) = none) :
    (post_profile db e).1.profiles = db.profiles ++ [profileRowOf e] := by
  simp [post_profile, h, habs, profileRowOf]

theorem post_profile_update (db : Store) (e : Signed Profile) (r : ProfileRow)
    (h : e.verify = true) (hsome : db.profiles.find? (fun x => x.key == e.key) = some r) :
    (post_profile db e).1.profiles =
      db.profiles.map (fun x => if x.key == e.key then { x with name := e.data.name } else x) := by
  simp [post_profile, h, hsome]

/-- C5 (amended): submitting profile `e1` then `e2` from the same, previously
unknown key leaves a stored record carrying `e2`'s name — the last submission wins
unconditionally, with no timestamp comparison — but retaining `e1`'s server,
timestamp and signature; no metadata column exists at all. -/
theorem post_profile_last_name_wins (db : Store) (e1 e2 : Signed Profile)
    (h1 : e1.verify = true) (h2 : e2.verify = true) (hk : e2.key = e1.key)
    (habs : db.profiles.find? (fun r => r.key == e1.key) = none) :
    ((post_profile (post_profile db e1).1 e2).1.profiles.find? (fun r => r.key == e1.key))
      = some { key := e1.key, server := e1.server, timestamp := e1.timestamp,
               name := e2.data.name, signature := e1.signature } := by
  have hrow1 := post_profile_insert db e1 h1 habs
  have hfind1 : (post_profile db e1).1.profiles.find? (fun r => r.key == e1.key)
      = some (profileRowOf e1) := by
    rw [hrow1, find?_append_of_none _ _ _ habs,
      List.find?_cons_of_pos _ (by simp [profileRowOf])]
  have hfind1' : (post_profile db e1).1.profiles.find? (fun x => x.key == e2.key)
      = some (profileRowOf e1) := by
    rw [hk]
    exact hfind1
  have hp : ∀ r : ProfileRow,
      (fun x : ProfileRow => x.key == e1.key)
          ((fun x : ProfileRow => if x.key == e2.key then { x with name := e2.data.name } else x) r)
        = (fun x : ProfileRow => x.key == e1.key) r := by
    intro r
    by_cases hr : r.key == e2.key
    · simp [hr]
    · simp [hr]
  rw [post_profile_update (post_profile db e1).1 e2 (profileRowOf e1) h2 hfind1',
    find?_map_pred_preserved _ _ hp, hfind1]
  simp [profileRowOf, hk]

def profA : Profile := ⟨"Alice", none⟩

def profB : Profile := ⟨"Bob", none⟩

def dummySignedProfile : Signed Profile := ⟨"", "", 0, profA, ""⟩

def e5a : Signed Profile := (Signed.new kpW "srv" 1 profA).getD dummySignedProfile

def e5b : Signed Profile := (Signed.new kpW "srv" 2 profB).getD dummySignedProfile

/-- The store after submitting Alice's profile then Bob's, from the same key. -/
def db5 : Store := (post_profile (post_profile Store.empty e5a).1 e5b).1

/-- C5 counterexample: the record stored after `e5a` then `e5b` carries `e5b`'s name
but `e5a`'s timestamp and signature — the claim that it carries `e2`'s signature and
timestamp fails. -/
theorem post_profile_keeps_old_signature :
    db5.profiles.map ProfileRow.name = ["Bob"]
    ∧ db5.profiles.map ProfileRow.timestamp = [e5a.timestamp]
    ∧ e5a.timestamp ≠ e5b.timestamp
    ∧ db5.profiles.map ProfileRow.signature = [e5a.signature]
    ∧ e5a.signature ≠ e5b.signature :=
  ⟨rfl, rfl, by decide, rfl, by decide⟩

/-- C5 witness: the amended theorem applied to the concrete Alice/Bob submissions. -/
theorem post_profile_last_name_wins_witness :
    ((post_profile (post_profile Store.empty e5a).1 e5b).1.profiles.find?
        (fun r => r.key == e5a.key))
      = some { key := e5a.key, server := e5a.server, timestamp := e5a.timestamp,
               name := e5b.data.name, signature := e5a.signature } :=
  post_profile_last_name_wins Store.empty e5a e5b rfl rfl rfl rfl

/-- C6: for a validly signed profile query, `get_profile` answers `PROFILE_NOT_FOUND`
exactly when no record is stored for the requested target key, and otherwise returns
the stored record, unmodified, as a signed envelope — an error response, never a
crash or an empty success. -/
theorem get_profile_not_found_iff (db : Store) (req : Signed ProfileRequest)
    (h : req.verify = true) :
    (get_profile db req = ProfileQueryResult.err ApiError.PROFILE_NOT_FOUND ↔
      db.profiles.find? (fun r => r.key == req.data.target_key) = none)
    ∧ ∀ row, db.profiles.find? (fun r => r.key == req.data.target_key) = some row →
        get_profile db req = ProfileQueryResult.ok (rowToProfile row) := by
  constructor
  · rcases hf : db.profiles.find? (fun r => r.key == req.data.target_key) with _ | row
    · simp [get_profile, h, hf]
    · simp [get_profile, h, hf]
  · intro row hrow
    simp [get_profile, h, hrow]

def dummySignedProfileRequest : Signed ProfileRequest := ⟨"", "", 0, ⟨""⟩, ""⟩

/-- A validly signed profile query for a key that is not stored. -/
def req6 : Signed ProfileRequest :=
  (Signed.new kpW "srv" 6 (ProfileRequest.mk "nobody")).getD dummySignedProfileRequest

/-- C6 witness: querying an empty store answers `PROFILE_NOT_FOUND`. -/
theorem get_profile_not_found_iff_witness :
    get_profile Store.empty req6 = ProfileQueryResult.err ApiError.PROFILE_NOT_FOUND :=
  ((get_profile_not_found_iff Store.empty req6 rfl).1).mpr rfl

/-- On every envelope whose key and signature decode without overflowing their
buffers, the panic-faithful `Signed.verify_run` returns, and returns exactly the
`Bool` of `Signed.verify` — the non-panicking projection is accurate off the
overflow path. -/
theorem verify_run_agrees {T : Type} [Serialize T] (e : Signed T)
    (hk : PublicKey.from_base64_run e.key ≠ Panics.panic)
    (hs : Signature.from_base64_run e.signature ≠ Panics.panic) :
    Signed.verify_run e = Panics.ret e.verify := by
  have hkey : PublicKey.from_base64 e.key =
      match PublicKey.from_base64_run e.key with
      | .ret r => r
      | .panic => none := rfl
  have hsig : Signature.from_base64 e.signature =
      match Signature.from_base64_run e.signature with
      | .ret r => r
      | .panic => none := rfl
  rcases hk' : PublicKey.from_base64_run e.key with rk | _
  · rcases rk with _ | pk
    · simp [Signed.verify_run, Signed.verify, hkey, hk']
    · rcases hs' : Signature.from_base64_run e.signature with rs | _
      · rcases rs with _ | sg
        · simp [Signed.verify_run, Signed.verify, hkey, hsig, hk', hs']
        · simp [Signed.verify_run, Signed.verify, hkey, hsig, hk', hs']
      · exact absurd hs' hs
  · exact absurd hk' hk

/-- C7 (amended): `Signed::verify` fails closed on undecodable identifier strings —
a key that is not valid base64, or a decodable key with a signature that is not
valid base64, makes it return `false`, never an error — but it is not total on all
inputs: a key whose valid base64 decoding exceeds the 32-byte buffer makes `verify`
panic inside `decode_slice_unchecked` rather than return `false`, and an undersized
encoding is not treated as malformed at all (it decodes zero-padded and proceeds to
the cryptographic check, which can succeed). -/
theorem verify_false_of_undecodable {T : Type} [Serialize T] (e : Signed T) :
    (decodeB64 e.key = none → Signed.verify_run e = Panics.ret false)
    ∧ (∀ pk, PublicKey.from_base64_run e.key = Panics.ret (some pk) →
        decodeB64 e.signature = none → Signed.verify_run e = Panics.ret false)
    ∧ (∀ bs, decodeB64 e.key = some bs → ED25519_PUBLIC_KEY_LEN < bs.length →
        Signed.verify_run e = Panics.panic) := by
  refine ⟨?_, ?_, ?_⟩
  · intro h
    have hk : PublicKey.from_base64_run e.key = Panics.ret none := by
      unfold PublicKey.from_base64_run fromBase64Run
      rw [h]
    simp [Signed.verify_run, hk]
  · intro pk hpk h
    have hs : Signature.from_base64_run e.signature = Panics.ret none := by
      unfold Signature.from_base64_run fromBase64Run
      rw [h]
    simp [Signed.verify_run, hpk, hs]
  · intro bs hbs hlen
    have hk : PublicKey.from_base64_run e.key = Panics.panic := by
      unfold PublicKey.from_base64_run fromBase64Run
      rw [hbs]
      simp [Nat.not_le.mpr hlen]
    simp [Signed.verify_run, hk]

/-- An envelope whose key and signature strings are not valid base64. -/
def e7bad : Signed Post := ⟨"%%%", "srv", 1, ⟨"c", "x", none⟩, "%%%"⟩

/-- C7 witness: the malformed envelope verifies false, without panicking. -/
theorem verify_false_of_undecodable_witness :
    Signed.verify_run e7bad = Panics.ret false :=
  (verify_false_of_undecodable e7bad).1 rfl

/-- A 32-byte key whose final byte is zero. -/
def seed7 : Bytes := (List.range 31).map (fun i => i + 1) ++ [0]

/-- An envelope over `seed7` whose key field is the undersized encoding of only the
first 31 key bytes, with a blank signature. -/
def env7base : Signed Post :=
  ⟨encodeB64 (seed7.take 31), "srv", 7, ⟨"general", "hi", none⟩, ""⟩

/-- The envelope `env7base` completed with a signature over its canonical bytes. -/
def env7 : Signed Post :=
  { env7base with signature :=
      Signature.to_base64 (edSign seed7 (strToBytes (serializeSigned env7base))) }

/-- C7 counterexample: an envelope whose key string is undersized — it decodes to
31 of the 32 buffer bytes — nevertheless verifies `true` (also under the
panic-faithful model): undersized encodings are not malformed, they zero-pad and
can pass verification. -/
theorem undersized_key_envelope_verifies :
    (decodeB64 env7.key).map List.length = some 31
    ∧ Signed.verify_run env7 = Panics.ret true
    ∧ env7.verify = true :=
  ⟨rfl, rfl, rfl⟩

/-- C8 (amended): one observation batch enqueues one profile-fetch command per
message whose sender is absent from the profile cache — once per such message, not
once per distinct unknown key. -/
theorem fetch_once_per_unknown_message (users : List (String × ProfileDisplay))
    (msgs : List Message) :
    observeBatch users msgs
      = (msgs.filter (fun m => !usersContains users m.sender)).map
          (fun m => BackendCommand.RequestProfile m.sender) := by
  have hdraw : ∀ (ms : List Message) (unknown : List String),
      (drawMessages users ms unknown).2
        = unknown ++ (ms.filter (fun m => !usersContains users m.sender)).map Message.sender := by
    intro ms
    induction ms with
    | nil => intro unknown; simp [drawMessages]
    | cons m rest ih =>
      intro unknown
      by_cases h : usersContains users m.sender
      · simp [drawMessages, h, ih]
      · simp [drawMessages, h, ih]
  simp [observeBatch, drainUnknown, hdraw, List.map_map, Function.comp_def]

/-- C8 counterexample: a batch of two messages from the same unknown sender "K"
enqueues two profile-fetch commands, not one per distinct unknown key. -/
theorem two_fetches_for_one_unknown_key :
    observeBatch [] [⟨"K", "a"⟩, ⟨"K", "b"⟩]
      = [BackendCommand.RequestProfile "K", BackendCommand.RequestProfile "K"]
    ∧ (observeBatch [] [⟨"K", "a"⟩, ⟨"K", "b"⟩]).length ≠ 1 :=
  ⟨rfl, by decide⟩
